import Mathlib

/-!
Shallow embedding of the distance-field core of cards-client
(`src/dfield.c`): the field generator `dfield_generate` and the on-disk
codec `dfield_to_file` / `dfield_from_file`, together with proofs about
the specification claims for these functions.

Modelling conventions:
* `int32_t` values are embedded as `ℤ`; where the C arithmetic can
  overflow a 32-bit signed integer we wrap explicitly (`wrap32`),
  modelling the common two's-complement wraparound behaviour of the
  (formally undefined) signed overflow.
* The floating-point pipeline `lrint(sqrt(minimum) / (spread * M_SQRT2
  * 128))` is embedded by its exact real value, rounded to the nearest
  integer with ties to even (the behaviour of `lrint` in the default
  rounding mode).  For nonnegative `m` and positive `d`, the nearest
  integer (ties to even) to `√(m / d)` is computed by the executable
  integer function `rneSqrt` below; `⌊√(m/d) + 1/2⌋ = (⌊√(4m/d)⌋+1)/2`
  and a tie `√(m/d) = n + 1/2` happens exactly when `4m = (2n+1)² d`.
* `lrint(x * x_scale)` for the nearest-neighbour source sample is
  embedded as round-to-nearest-ties-to-even of the exact rational
  `x * input_width / output_width` (`rneNat`); for every concrete
  instance used in a theorem below the double computation is exact, so
  the two agree.
* Reads outside the input buffer, `lrint` applied to an infinity or NaN
  (the `spread == 0` division by zero and the `sqrt` of a negative
  wrapped minimum) yield values the C standard does not determine; a
  pixel whose stored byte is undetermined makes the generator's result
  `GenResult.unspecified`.
* File contents are byte lists; the `fopen`-failure (`errno`) paths and
  short physical writes are environment conditions outside the model.
-/

/-- Result codes of the dfield operations (`enum dfield_result`; the
constants are those used throughout `src/dfield.c`). -/
inductive DfieldResult where
  | OKAY
  | ERROR_ERRNO
  | ERROR_READ_SIZE
  | ERROR_MAGIC
  | ERROR_BAD_SIZE
  | ERROR_WRITE_SIZE
  | ERROR_BAD_INPUT_SIZE
  | ERROR_BAD_OUTPUT_SIZE
  | ERROR_BAD_SPREAD
  deriving DecidableEq

/-- The `struct dfield` data model: `int32_t width, height` and a
row-major buffer of `width * height` signed bytes. -/
structure Dfield where
  width : ℤ
  height : ℤ
  data : List ℤ
  deriving DecidableEq

/-- Round-to-nearest with ties to even of the nonnegative rational
`num / den`; this is `lrint` (default rounding mode) applied to the
exact quotient. -/
def rneNat (num den : ℕ) : ℕ :=
  let q := num / den
  let r := num % den
  if 2 * r < den then q
  else if den < 2 * r then q + 1
  else if q % 2 = 0 then q else q + 1

/-- Two's-complement wraparound into the `int32_t` range, used where the
C arithmetic can overflow (the squared distance `i*i + j*j` at
`spread = 32768`). -/
def wrap32 (x : ℤ) : ℤ :=
  (x + 2147483648) % 4294967296 - 2147483648

/-- The final clamp of `dfield_generate`: `if (result > 127) result =
127; if (result < -127) result = -127;`. -/
def clamp127 (r : ℤ) : ℤ :=
  if 127 < r then 127 else if r < -127 then -127 else r

/-- Round-to-nearest with ties to even of `√(m / d)` (for `0 < d`),
computed with integer arithmetic: the candidate `(⌊√(4m/d)⌋ + 1) / 2`
rounds ties up, and the correction applies exactly at a tie
(`4m = (2n+1)² d`) whose upper candidate is odd.  This is the exact
value of `lrint(sqrt(m) / D)` for a real divisor `D` with `D² = d`. -/
def rneSqrt (m d : ℕ) : ℕ :=
  let n := (Nat.sqrt (4 * m / d) + 1) / 2
  if 4 * m = (2 * n - 1) ^ 2 * d ∧ n % 2 = 1 then n - 1 else n

/-- A stored byte read back as `int8_t`. -/
def int8OfByte (b : ℕ) : ℤ :=
  if b < 128 then (b : ℤ) else (b : ℤ) - 256

/-- An `int8_t` value as the byte written to a file. -/
def byteOfInt8 (v : ℤ) : ℕ :=
  (v % 256).toNat

/-- Four little-endian bytes decoded as an `int32_t` (the on-disk
integer encoding of the dfield format on the target platform). -/
def int32OfLE (b0 b1 b2 b3 : ℕ) : ℤ :=
  let u : ℕ := b0 + 256 * b1 + 65536 * b2 + 16777216 * b3
  if u < 2147483648 then (u : ℤ) else (u : ℤ) - 4294967296

/-- An `int32_t` encoded as its four little-endian bytes. -/
def int32ToLE (v : ℤ) : List ℕ :=
  let u := (v % 4294967296).toNat
  [u % 256, u / 256 % 256, u / 65536 % 256, u / 16777216 % 256]

/-- The byte stream written by `dfield_to_file`: the magic `'D','F'`,
`width` and `height` as raw `int32_t`, then the `width * height` data
bytes.  (Failure to open the file or a short physical write are
environment conditions outside the model.) -/
def dfieldToFile (d : Dfield) : List ℕ :=
  [68, 70] ++ int32ToLE d.width ++ int32ToLE d.height ++ d.data.map byteOfInt8

/-- The body of `dfield_from_file` on an openable file with content
`file`, threading the caller's `dfield_out` object explicitly: the
result code, and the value of `dfield_out` after the call.  Mirrors the
source step by step:
1. `fread(magic_in, 1, 2)` returns `min 2 file.length` bytes; a short
   read is `ERROR_READ_SIZE`.
2. each magic byte is compared with `'D','F'`; a mismatch is
   `ERROR_MAGIC`.
3. `fread(size, 2, sizeof(*size))` reads up to `sizeof(*size) = 4`
   items of 2 bytes and returns the item count, which the code then
   compares against `sizeof(size) = 8`.
4. nonpositive `width`/`height` is `ERROR_BAD_SIZE`.
5. `fread(buffer, 1, width*height)` short reads are `ERROR_READ_SIZE`.
6. only then is `*dfield_out` assigned. -/
def dfieldFromFileSt (file : List ℕ) (old : Option Dfield) :
    DfieldResult × Option Dfield :=
  if min 2 file.length ≠ 2 then (.ERROR_READ_SIZE, old)
  else if ¬ (file.getD 0 0 = 68 ∧ file.getD 1 0 = 70) then (.ERROR_MAGIC, old)
  else if min 4 ((file.length - 2) / 2) ≠ 8 then (.ERROR_READ_SIZE, old)
  else
    let w := int32OfLE (file.getD 2 0) (file.getD 3 0) (file.getD 4 0) (file.getD 5 0)
    let h := int32OfLE (file.getD 6 0) (file.getD 7 0) (file.getD 8 0) (file.getD 9 0)
    if w ≤ 0 ∨ h ≤ 0 then (.ERROR_BAD_SIZE, old)
    else if min (w * h).toNat (file.length - 10) ≠ (w * h).toNat then
      (.ERROR_READ_SIZE, old)
    else
      (.OKAY, some ⟨w, h, ((file.drop 10).take (w * h).toNat).map int8OfByte⟩)

/-- The row/column offsets `-spread, …, spread` scanned by the search
loops of `dfield_generate`. -/
def spreadOffsets (spread : ℕ) : List ℤ :=
  (List.range (2 * spread + 1)).map (fun t : ℕ => (t : ℤ) - spread)

/-- Body of the inner column loop of the boundary search: one candidate
cell at column offset `j` in the row `y2` (row offset `i`), updating the
running minimum `m2`.  The C locals `x2` and `state2` are inlined.  The
squared distance `i*i + j*j` is computed in `int32_t`, wrapping on
overflow. -/
def windowCell (data : List ℕ) (iw : ℕ) (state : Bool) (x_in : ℕ)
    (y2 i : ℤ) (m2 j : ℤ) : ℤ :=
  if 0 ≤ (x_in : ℤ) + j ∧ (x_in : ℤ) + j < iw then
    if (data.getD (y2.toNat * iw + ((x_in : ℤ) + j).toNat) 0 != 0) ≠ state ∧
        wrap32 (i ^ 2 + j ^ 2) < m2 then wrap32 (i ^ 2 + j ^ 2)
    else m2
  else m2

/-- Body of the outer row loop of the boundary search: the whole column
scan for row offset `i`, skipped when the row `y2 = y_in + i` (inlined)
is outside the grid.  The C `continue`/`break` edge handling (skip
negative overflow cell-by-cell, stop scanning on positive overflow)
visits exactly the in-bounds offsets, in increasing order, so it is
embedded as a fold over the offset list guarded by the bounds test. -/
def windowRow (data : List ℕ) (iw ih spread : ℕ) (x_in y_in : ℕ)
    (state : Bool) (m i : ℤ) : ℤ :=
  if 0 ≤ (y_in : ℤ) + i ∧ (y_in : ℤ) + i < ih then
    (spreadOffsets spread).foldl
      (windowCell data iw state x_in ((y_in : ℤ) + i) i) m
  else m

/-- The boundary search of `dfield_generate` around source pixel
`(x_in, y_in)` with sampled state `state`: the minimum wrapped
`i*i + j*j` over in-bounds window cells whose state differs, starting
from the sentinel `INT32_MAX`. -/
def windowMin (data : List ℕ) (iw ih spread : ℕ) (x_in y_in : ℕ)
    (state : Bool) : ℤ :=
  (spreadOffsets spread).foldl
    (windowRow data iw ih spread x_in y_in state) 2147483647

/-- The value computed for one output pixel from its sampled centre byte
`b`: boundary search, square root, sign (negative on foreground),
normalisation by `spread * √2 * 128`, rounding and clamping.  `none`
when the stored byte is not determined: the `spread == 0` division by
zero (`lrint` of an infinity), or a negative wrapped minimum (`lrint` of
the NaN `sqrt` of a negative).  The C locals `state`, `minimum` and
`minimum_g` are inlined. -/
def dfieldPixelVal (data : List ℕ) (iw ih spread x_in y_in : ℕ) (b : ℕ) :
    Option ℤ :=
  if spread = 0 then none
  else if windowMin data iw ih spread x_in y_in (b != 0) < 0 then none
  else some (clamp127 (if b != 0 then
    -(rneSqrt (windowMin data iw ih spread x_in y_in (b != 0)).toNat
      (32768 * spread ^ 2) : ℤ)
    else (rneSqrt (windowMin data iw ih spread x_in y_in (b != 0)).toNat
      (32768 * spread ^ 2) : ℤ)))

/-- One output pixel of `dfield_generate` at `(x, y)` (both counted from
0): nearest-neighbour source sample, then `dfieldPixelVal`.  The whole
pixel is `none` when its stored byte is not determined, which also
happens when the centre sample read is out of the input buffer
(undefined behaviour). -/
def dfieldPixel (data : List ℕ) (iw ih ow oh spread x y : ℕ) : Option ℤ :=
  (data[rneNat (y * ih) oh * iw + rneNat (x * iw) ow]?).bind
    (dfieldPixelVal data iw ih spread (rneNat (x * iw) ow) (rneNat (y * ih) oh))

/-- The pixel at flat row-major position `k` (the C code stores
`field[y * output_width + x]`). -/
def dfieldPixAt (data : List ℕ) (iw ih ow oh spread k : ℕ) : Option ℤ :=
  dfieldPixel data iw ih ow oh spread (k % ow) (k / ow)

/-- Result of `dfield_generate`: a validation error, a fully determined
field, or `unspecified` when some stored byte is not determined by the
source (see `dfieldPixel`). -/
inductive GenResult where
  | error (r : DfieldResult)
  | unspecified
  | ok (f : Dfield)
  deriving DecidableEq

/-- The generator `dfield_generate`: parameter validation in source
order, then the per-pixel computation over the whole output grid. -/
def dfieldGenerate (data : List ℕ)
    (input_width input_height output_width output_height spread : ℤ) :
    GenResult :=
  if input_width ≤ 0 ∨ input_height ≤ 0 then .error .ERROR_BAD_INPUT_SIZE
  else if output_width ≤ 0 ∨ output_height ≤ 0 then .error .ERROR_BAD_OUTPUT_SIZE
  else if spread < 0 ∨ 32768 < spread then .error .ERROR_BAD_SPREAD
  else
    let iw := input_width.toNat
    let ih := input_height.toNat
    let ow := output_width.toNat
    let oh := output_height.toNat
    let sp := spread.toNat
    if ∀ k ∈ List.range (oh * ow), (dfieldPixAt data iw ih ow oh sp k).isSome then
      .ok ⟨output_width, output_height,
        (List.range (oh * ow)).map fun k => (dfieldPixAt data iw ih ow oh sp k).getD 0⟩
    else .unspecified

/-- `dfield_generate` with the caller's `dfield_out` object threaded
explicitly: the result code and the value of `dfield_out` after the
call.  After successful validation the C function unconditionally fills
the buffer and returns `OKAY`; a byte the source leaves undetermined
(see `dfieldPixel`) is represented here by the placeholder value 0 —
the theorems below about this function only concern non-`OKAY`
results, which never reach that branch. -/
def dfieldGenerateSt (data : List ℕ)
    (input_width input_height output_width output_height spread : ℤ)
    (old : Option Dfield) : DfieldResult × Option Dfield :=
  if input_width ≤ 0 ∨ input_height ≤ 0 then (.ERROR_BAD_INPUT_SIZE, old)
  else if output_width ≤ 0 ∨ output_height ≤ 0 then (.ERROR_BAD_OUTPUT_SIZE, old)
  else if spread < 0 ∨ 32768 < spread then (.ERROR_BAD_SPREAD, old)
  else
    (.OKAY, some ⟨output_width, output_height,
      (List.range (output_height.toNat * output_width.toNat)).map fun k =>
        (dfieldPixAt data input_width.toNat input_height.toNat
          output_width.toNat output_height.toNat spread.toNat k).getD 0⟩)

/-! ### General helper lemmas -/

/-- A fold whose step never changes the accumulator returns the initial
value. -/
theorem foldl_fixed {α β : Type} (f : α → β → α) (l : List β) (a : α)
    (h : ∀ x ∈ l, ∀ m, f m x = m) : l.foldl f a = a := by
  induction l generalizing a with
  | nil => rfl
  | cons x xs ih =>
    rw [List.foldl_cons, h x (List.mem_cons_self x xs)]
    exact ih a fun y hy m => h y (List.mem_cons_of_mem x hy) m

/-- Membership in the search offset list. -/
theorem mem_spreadOffsets {s : ℕ} {i : ℤ} :
    i ∈ spreadOffsets s ↔ -(s : ℤ) ≤ i ∧ i ≤ s := by
  unfold spreadOffsets
  constructor
  · intro hmem
    obtain ⟨t, ht, hEq⟩ := List.mem_map.1 hmem
    have := List.mem_range.1 ht
    omega
  · intro h
    exact List.mem_map.2 ⟨(i + s).toNat, List.mem_range.2 (by omega), by omega⟩

/-- The pixel value at `spread = 0` always divides by zero in the
normalisation, so the stored byte is undetermined. -/
theorem dfieldPixelVal_spread_zero (data : List ℕ) (iw ih x_in y_in b : ℕ) :
    dfieldPixelVal data iw ih 0 x_in y_in b = none := by
  unfold dfieldPixelVal
  rw [if_pos rfl]

/-- A pixel with `spread = 0` has an undetermined stored byte, whatever
its centre sample. -/
theorem dfieldPixel_spread_zero (data : List ℕ) (iw ih ow oh x y : ℕ) :
    dfieldPixel data iw ih ow oh 0 x y = none := by
  unfold dfieldPixel
  cases h : data[rneNat (y * ih) oh * iw + rneNat (x * iw) ow]? <;>
    simp [h, dfieldPixelVal_spread_zero]

/-- Any determined pixel value has been clamped into `[-127, 127]`. -/
theorem dfieldPixel_bounds (data : List ℕ) (iw ih ow oh spread x y : ℕ)
    (v : ℤ) (h : dfieldPixel data iw ih ow oh spread x y = some v) :
    -127 ≤ v ∧ v ≤ 127 := by
  unfold dfieldPixel at h
  cases hg : data[rneNat (y * ih) oh * iw + rneNat (x * iw) ow]? with
  | none => rw [hg] at h; simp at h
  | some b =>
    rw [hg, Option.some_bind] at h
    unfold dfieldPixelVal at h
    by_cases h0 : spread = 0
    · rw [if_pos h0] at h; simp at h
    · rw [if_neg h0] at h
      by_cases hm : windowMin data iw ih spread (rneNat (x * iw) ow)
          (rneNat (y * ih) oh) (b != 0) < 0
      · rw [if_pos hm] at h; simp at h
      · rw [if_neg hm] at h
        simp only [Option.some.injEq] at h
        subst h
        unfold clamp127
        split
        · omega
        · split <;> omega

/-- If every in-bounds cell of the input grid has the same state as the
sampled centre state, the boundary search never updates and returns the
sentinel `INT32_MAX`. -/
theorem windowMin_sentinel (data : List ℕ) (iw ih spread x_in y_in : ℕ)
    (st : Bool) (h : ∀ n, n < ih * iw → (data.getD n 0 != 0) = st) :
    windowMin data iw ih spread x_in y_in st = 2147483647 := by
  unfold windowMin
  apply foldl_fixed
  intro i _ m
  unfold windowRow
  by_cases hy : 0 ≤ (y_in : ℤ) + i ∧ (y_in : ℤ) + i < ih
  · rw [if_pos hy]
    apply foldl_fixed
    intro j _ m2
    unfold windowCell
    by_cases hx : 0 ≤ (x_in : ℤ) + j ∧ (x_in : ℤ) + j < iw
    · rw [if_pos hx]
      have h1 : ((y_in : ℤ) + i).toNat < ih := by omega
      have h2 : ((x_in : ℤ) + j).toNat < iw := by omega
      have hidx : ((y_in : ℤ) + i).toNat * iw + ((x_in : ℤ) + j).toNat < ih * iw :=
        Nat.lt_of_lt_of_le (by rw [Nat.succ_mul]; omega)
          (Nat.mul_le_mul_right iw h1)
      rw [h _ hidx, if_neg (by simp)]
    · rw [if_neg hx]
  · rw [if_neg hy]

/-- The quantised sentinel magnitude at `spread = 1`:
`lrint(sqrt(INT32_MAX) / (1 * √2 * 128)) = 256`. -/
theorem rneSqrt_sentinel_one : rneSqrt 2147483647 32768 = 256 := by
  unfold rneSqrt
  have h1 : 4 * 2147483647 / 32768 = 262143 := by norm_num
  have h2 : Nat.sqrt 262143 = 511 := by
    have ha : 511 ≤ Nat.sqrt 262143 := Nat.le_sqrt.2 (by norm_num)
    have hb : Nat.sqrt 262143 < 512 := Nat.sqrt_lt.2 (by norm_num)
    omega
  rw [h1, h2]
  norm_num

/-- The quantised sentinel magnitude at `spread = 2`:
`lrint(sqrt(INT32_MAX) / (2 * √2 * 128)) = 128`. -/
theorem rneSqrt_sentinel_two : rneSqrt 2147483647 131072 = 128 := by
  unfold rneSqrt
  have h1 : 4 * 2147483647 / 131072 = 65535 := by norm_num
  have h2 : Nat.sqrt 65535 = 255 := by
    have ha : 255 ≤ Nat.sqrt 65535 := Nat.le_sqrt.2 (by norm_num)
    have hb : Nat.sqrt 65535 < 256 := Nat.sqrt_lt.2 (by norm_num)
    omega
  rw [h1, h2]
  norm_num

/-- The quantised sentinel magnitude at `spread = 3`:
`lrint(sqrt(INT32_MAX) / (3 * √2 * 128)) = 85`, already below the
clamp boundary 127. -/
theorem rneSqrt_sentinel_three : rneSqrt 2147483647 294912 = 85 := by
  unfold rneSqrt
  have h1 : 4 * 2147483647 / 294912 = 29127 := by norm_num
  have h2 : Nat.sqrt 29127 = 170 := by
    have ha : 170 ≤ Nat.sqrt 29127 := Nat.le_sqrt.2 (by norm_num)
    have hb : Nat.sqrt 29127 < 171 := Nat.sqrt_lt.2 (by norm_num)
    omega
  rw [h1, h2]
  norm_num

/-- On a uniform input grid (every byte's state equal to `st`), an
in-range-sampled pixel is the clamped, signed quantisation of the
sentinel distance. -/
theorem dfieldPixel_uniform (data : List ℕ) (iw ih ow oh spread x y : ℕ)
    (st : Bool) (hlen : data.length = iw * ih)
    (hmem : ∀ b ∈ data, (b != 0) = st) (hsp : spread ≠ 0)
    (hx : rneNat (x * iw) ow < iw) (hy : rneNat (y * ih) oh < ih) :
    dfieldPixel data iw ih ow oh spread x y =
      some (clamp127 (if st then -(rneSqrt 2147483647 (32768 * spread ^ 2) : ℤ)
        else (rneSqrt 2147483647 (32768 * spread ^ 2) : ℤ))) := by
  have hlen' : data.length = ih * iw := by rw [hlen, Nat.mul_comm]
  have hread : ∀ n, n < ih * iw → (data.getD n 0 != 0) = st := by
    intro n hn
    have hn' : n < data.length := by omega
    rw [List.getD_eq_getElem?_getD, List.getElem?_eq_getElem hn',
      Option.getD_some]
    exact hmem _ (List.getElem_mem hn')
  have hidx : rneNat (y * ih) oh * iw + rneNat (x * iw) ow < data.length := by
    rw [hlen']
    exact Nat.lt_of_lt_of_le (by rw [Nat.succ_mul]; omega)
      (Nat.mul_le_mul_right iw hy)
  unfold dfieldPixel
  rw [List.getElem?_eq_getElem hidx, Option.some_bind]
  unfold dfieldPixelVal
  rw [hmem _ (List.getElem_mem hidx)]
  rw [windowMin_sentinel data iw ih spread _ _ st hread]
  rw [if_neg hsp, if_neg (by norm_num)]
  rfl

/-- On a uniform input grid with in-range sampling everywhere,
`dfield_generate` succeeds and every output byte is the same clamped,
signed quantisation of the sentinel distance. -/
theorem dfieldGenerate_uniform (data : List ℕ) (iw ih ow oh spread : ℕ)
    (st : Bool) (c : ℤ) (hlen : data.length = iw * ih)
    (hiw : 0 < iw) (hih : 0 < ih) (how : 0 < ow) (hoh : 0 < oh)
    (hsp0 : spread ≠ 0) (hsp : spread ≤ 32768)
    (hx : ∀ x < ow, rneNat (x * iw) ow < iw)
    (hy : ∀ y < oh, rneNat (y * ih) oh < ih)
    (hmem : ∀ b ∈ data, (b != 0) = st)
    (hc : c = clamp127 (if st then -(rneSqrt 2147483647 (32768 * spread ^ 2) : ℤ)
      else (rneSqrt 2147483647 (32768 * spread ^ 2) : ℤ))) :
    dfieldGenerate data iw ih ow oh spread =
      .ok ⟨ow, oh, List.replicate (oh * ow) c⟩ := by
  have hpix : ∀ k, k < oh * ow → dfieldPixAt data iw ih ow oh spread k = some c := by
    intro k hk
    unfold dfieldPixAt
    rw [dfieldPixel_uniform data iw ih ow oh spread (k % ow) (k / ow) st hlen hmem
      hsp0 (hx _ (Nat.mod_lt k how)) (hy _ ((Nat.div_lt_iff_lt_mul how).2 hk)), hc]
  unfold dfieldGenerate
  rw [if_neg (by omega), if_neg (by omega), if_neg (by omega)]
  dsimp only
  simp only [Int.toNat_natCast]
  rw [if_pos]
  · have hmap : (List.range (oh * ow)).map
        (fun k => (dfieldPixAt data iw ih ow oh spread k).getD 0) =
        List.replicate (oh * ow) c := by
      apply List.eq_replicate_iff.2
      refine ⟨by simp, ?_⟩
      intro b hb
      obtain ⟨k, hk, rfl⟩ := List.mem_map.1 hb
      rw [hpix k (List.mem_range.1 hk)]
      rfl
    rw [hmap]
  · intro k hk
    rw [hpix k (List.mem_range.1 hk)]
    rfl

/-! ### Claim theorems -/

/-- C1 (amended): for a uniform input grid (all bytes zero, or all bytes
nonzero), positive dimensions such that every nearest-neighbour sample
coordinate stays inside the input grid, and a spread of 1 or 2,
`dfield_generate` succeeds and every output byte has magnitude exactly
127, negative on an all-foreground grid and positive on an
all-background grid.  (As stated over all spreads up to 32768 the claim
fails: see the counterexample at spread 3, where the sentinel magnitude
quantises to 85; and a sample coordinate can leave the grid, see C6.) -/
theorem dfield_c1_uniform_saturates (data : List ℕ) (iw ih ow oh spread : ℕ)
    (hlen : data.length = iw * ih) (hiw : 0 < iw) (hih : 0 < ih)
    (how : 0 < ow) (hoh : 0 < oh) (hsp1 : 1 ≤ spread) (hsp2 : spread ≤ 2)
    (hx : ∀ x < ow, rneNat (x * iw) ow < iw)
    (hy : ∀ y < oh, rneNat (y * ih) oh < ih) :
    ((∀ b ∈ data, b = 0) → dfieldGenerate data iw ih ow oh spread =
      .ok ⟨ow, oh, List.replicate (oh * ow) 127⟩) ∧
    ((∀ b ∈ data, b ≠ 0) → dfieldGenerate data iw ih ow oh spread =
      .ok ⟨ow, oh, List.replicate (oh * ow) (-127)⟩) := by
  have hsp : spread = 1 ∨ spread = 2 := by omega
  constructor
  · intro hz
    apply dfieldGenerate_uniform data iw ih ow oh spread false 127 hlen hiw hih
      how hoh (by omega) (by omega) hx hy
    · intro b hb
      simp [hz b hb]
    · rcases hsp with h | h <;> subst h
      · rw [show (32768 * 1 ^ 2 : ℕ) = 32768 by norm_num, rneSqrt_sentinel_one]
        norm_num [clamp127]
      · rw [show (32768 * 2 ^ 2 : ℕ) = 131072 by norm_num, rneSqrt_sentinel_two]
        norm_num [clamp127]
  · intro hnz
    apply dfieldGenerate_uniform data iw ih ow oh spread true (-127) hlen hiw hih
      how hoh (by omega) (by omega) hx hy
    · intro b hb
      simp [hnz b hb]
    · rcases hsp with h | h <;> subst h
      · rw [show (32768 * 1 ^ 2 : ℕ) = 32768 by norm_num, rneSqrt_sentinel_one]
        norm_num [clamp127]
      · rw [show (32768 * 2 ^ 2 : ℕ) = 131072 by norm_num, rneSqrt_sentinel_two]
        norm_num [clamp127]

/-- C1 counterexample: on the uniform all-black 1×1 grid with 1×1 output
and spread 3 (within the claimed range 1 ≤ spread ≤ 32768), generation
succeeds but the single output byte is 85, not of magnitude 127: the
sentinel magnitude `√(2³¹−1)/(3·√2·128) ≈ 85.33` is already below the
clamp boundary. -/
theorem dfield_c1_counterexample :
    dfieldGenerate [0] 1 1 1 1 3 = .ok ⟨1, 1, [85]⟩ ∧
    (85 : ℤ) ≠ 127 ∧ (85 : ℤ) ≠ -127 := by
  refine ⟨?_, by norm_num, by norm_num⟩
  have h := dfieldGenerate_uniform [0] 1 1 1 1 3 false 85 rfl (by norm_num)
    (by norm_num) (by norm_num) (by norm_num) (by norm_num) (by norm_num)
    (by decide) (by decide) (by decide) ?_
  · exact h
  · rw [show (32768 * 3 ^ 2 : ℕ) = 294912 by norm_num, rneSqrt_sentinel_three]
    norm_num [clamp127]

/-- C1 witness: the all-black 1×1 grid at spread 1 saturates to +127. -/
theorem dfield_c1_witness :
    dfieldGenerate [0] 1 1 1 1 1 = .ok ⟨1, 1, List.replicate 1 127⟩ :=
  (dfield_c1_uniform_saturates [0] 1 1 1 1 1 rfl (by norm_num) (by norm_num)
    (by norm_num) (by norm_num) (by norm_num) (by norm_num) (by decide)
    (by decide)).1 (by decide)

/-- C3: the codec does not round-trip.  Writing the valid 1×1 field with
byte 5 and reading the produced bytes back fails with
`ERROR_READ_SIZE` (and leaves the output unset): `dfield_from_file`
compares the item count returned by `fread(size, 2, sizeof(*size))` —
at most 4 — against `sizeof(size) = 8`, so the dimension read is always
reported short. -/
theorem dfield_c3_roundtrip_fails :
    dfieldFromFileSt (dfieldToFile ⟨1, 1, [5]⟩) none =
      (.ERROR_READ_SIZE, none) := by decide

/-- C4: on the spec's own test vector (2×2 grid `[[0,0],[0,255]]`
upscaled to 4×4 with spread 2) the generator's result is not determined:
the nearest-neighbour sample for output column 3 is source column
`lrint(3·0.5) = 2`, so at output pixel `(3, 2)` the centre read uses flat
index `1·2 + 2 = 4`, one past the end of the 4-byte input buffer. -/
theorem dfield_c4_test_vector :
    dfieldGenerate [0, 0, 0, 255] 2 2 4 4 2 = .unspecified ∧
    dfieldPixel [0, 0, 0, 255] 2 2 4 4 2 3 2 = none ∧
    rneNat (2 * 2) 4 * 2 + rneNat (3 * 2) 4 = 4 := by decide

/-- C5: every byte of a field produced by a successful (fully
determined) generation lies in `[-127, 127]`; in particular `-128` never
occurs. -/
theorem dfield_c5_bytes_in_range (data : List ℕ) (iw ih ow oh spread : ℤ)
    (F : Dfield) (hok : dfieldGenerate data iw ih ow oh spread = .ok F) :
    ∀ b ∈ F.data, -127 ≤ b ∧ b ≤ 127 := by
  unfold dfieldGenerate at hok
  by_cases h1 : iw ≤ 0 ∨ ih ≤ 0
  · rw [if_pos h1] at hok
    exact absurd hok (by simp)
  rw [if_neg h1] at hok
  by_cases h2 : ow ≤ 0 ∨ oh ≤ 0
  · rw [if_pos h2] at hok
    exact absurd hok (by simp)
  rw [if_neg h2] at hok
  by_cases h3 : spread < 0 ∨ 32768 < spread
  · rw [if_pos h3] at hok
    exact absurd hok (by simp)
  rw [if_neg h3] at hok
  dsimp only at hok
  by_cases h4 : ∀ k ∈ List.range (oh.toNat * ow.toNat),
      (dfieldPixAt data iw.toNat ih.toNat ow.toNat oh.toNat spread.toNat k).isSome
  · rw [if_pos h4] at hok
    simp only [GenResult.ok.injEq] at hok
    subst hok
    intro b hb
    obtain ⟨k, hk, rfl⟩ := List.mem_map.1 hb
    have hs := h4 k hk
    obtain ⟨v, hv⟩ := Option.isSome_iff_exists.1 hs
    rw [hv, Option.getD_some]
    unfold dfieldPixAt at hv
    exact dfieldPixel_bounds data iw.toNat ih.toNat ow.toNat oh.toNat
      spread.toNat (k % ow.toNat) (k / ow.toNat) v hv
  · rw [if_neg h4] at hok
    exact absurd hok (by simp)

/-- C5 witness: the 2×1 grid `[0, 1]` generates successfully at spread 1
with bytes `[0, 0]`, and the byte 0 lies in range. -/
theorem dfield_c5_witness : -127 ≤ (0 : ℤ) ∧ (0 : ℤ) ≤ 127 :=
  dfield_c5_bytes_in_range [0, 1] 2 1 2 1 1 ⟨2, 1, [0, 0]⟩ (by decide) 0
    (by decide)

/-- C6: the nearest-neighbour sample coordinate is not always in range:
with a 2×2 input and 4×4 output, output column 3 maps to source column
`lrint(3 · 2/4) = lrint(1.5) = 2 = input_width`, so the centre sample
for output pixel `(3, 3)` reads flat index 6 of the 4-byte buffer, and
generation on an all-black 2×2 grid is consequently undetermined. -/
theorem dfield_c6_sample_out_of_bounds :
    rneNat (3 * 2) 4 = 2 ∧ ¬ rneNat (3 * 2) 4 < 2 ∧
    dfieldGenerate (List.replicate 4 0) 2 2 4 4 1 = .unspecified := by decide

/-- C7: `dfield_generate` validates its parameters in source order with
first match winning — bad input size, then bad output size, then bad
spread, and no error otherwise — and on the two concrete calls of the
claim returns `ERROR_BAD_INPUT_SIZE` and `ERROR_BAD_SPREAD`. -/
theorem dfield_c7_validation_order :
    (∀ (data : List ℕ) (iw ih ow oh s : ℤ), (iw ≤ 0 ∨ ih ≤ 0) →
      dfieldGenerate data iw ih ow oh s = .error .ERROR_BAD_INPUT_SIZE) ∧
    (∀ (data : List ℕ) (iw ih ow oh s : ℤ), ¬(iw ≤ 0 ∨ ih ≤ 0) →
      (ow ≤ 0 ∨ oh ≤ 0) →
      dfieldGenerate data iw ih ow oh s = .error .ERROR_BAD_OUTPUT_SIZE) ∧
    (∀ (data : List ℕ) (iw ih ow oh s : ℤ), ¬(iw ≤ 0 ∨ ih ≤ 0) →
      ¬(ow ≤ 0 ∨ oh ≤ 0) → (s < 0 ∨ 32768 < s) →
      dfieldGenerate data iw ih ow oh s = .error .ERROR_BAD_SPREAD) ∧
    (∀ (data : List ℕ) (iw ih ow oh s : ℤ), ¬(iw ≤ 0 ∨ ih ≤ 0) →
      ¬(ow ≤ 0 ∨ oh ≤ 0) → ¬(s < 0 ∨ 32768 < s) →
      ∀ r, dfieldGenerate data iw ih ow oh s ≠ .error r) ∧
    dfieldGenerate (List.replicate 100 0) 0 10 10 10 1 =
      .error .ERROR_BAD_INPUT_SIZE ∧
    dfieldGenerate (List.replicate 100 0) 10 10 10 10 40000 =
      .error .ERROR_BAD_SPREAD := by
  refine ⟨?_, ?_, ?_, ?_, by decide, by decide⟩
  · intro data iw ih ow oh s h
    unfold dfieldGenerate
    rw [if_pos h]
  · intro data iw ih ow oh s h1 h2
    unfold dfieldGenerate
    rw [if_neg h1, if_pos h2]
  · intro data iw ih ow oh s h1 h2 h3
    unfold dfieldGenerate
    rw [if_neg h1, if_neg h2, if_pos h3]
  · intro data iw ih ow oh s h1 h2 h3 r
    unfold dfieldGenerate
    rw [if_neg h1, if_neg h2, if_neg h3]
    dsimp only
    split <;> simp

/-- C7 witness: a negative input width is rejected as bad input size. -/
theorem dfield_c7_witness :
    dfieldGenerate [] (-3) 7 7 7 1 = .error .ERROR_BAD_INPUT_SIZE :=
  dfield_c7_validation_order.1 [] (-3) 7 7 7 1 (Or.inl (by norm_num))

/-- C8 counterexample: at spread 0 on the 1×1 all-white grid, validation
passes but the result is not the claimed degenerate all-zero field: the
source has no special case, the normalisation divides by zero and the
stored byte is undetermined. -/
theorem dfield_c8_counterexample :
    dfieldGenerate [1] 1 1 1 1 0 = .unspecified ∧
    dfieldGenerate [1] 1 1 1 1 0 ≠ .ok ⟨1, 1, [0]⟩ := by decide

/-- C8 (amended): `spread == 0` passes the validation (the check is
`spread < 0`, although the error string of `dfield_result_string`
documents `n <= 0` as invalid), and the implementation has no special
case: for every input and positive dimensions the normalisation divides
by zero on every pixel, so no byte of the result is determined. -/
theorem dfield_c8_no_special_case (data : List ℕ) (iw ih ow oh : ℤ)
    (hiw : 0 < iw) (hih : 0 < ih) (how : 0 < ow) (hoh : 0 < oh) :
    dfieldGenerate data iw ih ow oh 0 = .unspecified := by
  unfold dfieldGenerate
  rw [if_neg (by omega), if_neg (by omega), if_neg (by norm_num)]
  dsimp only
  rw [if_neg]
  intro hall
  have h0 : (0 : ℕ) ∈ List.range (oh.toNat * ow.toNat) :=
    List.mem_range.2 (Nat.mul_pos (by omega) (by omega))
  have hpix := hall 0 h0
  unfold dfieldPixAt at hpix
  rw [show (0 : ℤ).toNat = 0 from rfl, dfieldPixel_spread_zero] at hpix
  exact absurd hpix (by simp)

/-- C8 witness: a concrete spread-0 call whose result is undetermined. -/
theorem dfield_c8_witness : dfieldGenerate [7] 3 3 3 3 0 = .unspecified :=
  dfield_c8_no_special_case [7] 3 3 3 3 (by norm_num) (by norm_num)
    (by norm_num) (by norm_num)

/-- C9: the failure modes of `dfield_from_file` in reading order.  A bad
magic byte is reported as `ERROR_MAGIC` as claimed, but a file with
valid magic and `width = 0` is reported as `ERROR_READ_SIZE` (the claim
says `ERROR_BAD_SIZE`), and a complete, valid 1×1 file is also reported
as `ERROR_READ_SIZE` (the claim says success): the dimension-read check
compares `fread`'s item count (at most 4) with `sizeof(size) = 8`. -/
theorem dfield_c9_failure_modes :
    (dfieldFromFileSt [88, 70, 1, 0, 0, 0, 1, 0, 0, 0, 0] none).1 =
      .ERROR_MAGIC ∧
    (dfieldFromFileSt [68, 70, 0, 0, 0, 0, 0, 0, 0, 0] none).1 =
      .ERROR_READ_SIZE ∧
    (dfieldFromFileSt [68, 70, 1, 0, 0, 0, 1, 0, 0, 0, 5] none).1 =
      .ERROR_READ_SIZE := by decide

/-- C10: whenever `dfield_from_file` or `dfield_generate` returns a
result other than success, the caller's `dfield_out` object is left
exactly as it was — the output is assigned only on the success path. -/
theorem dfield_c10_no_partial_output :
    (∀ (file : List ℕ) (old : Option Dfield),
      (dfieldFromFileSt file old).1 ≠ .OKAY →
      (dfieldFromFileSt file old).2 = old) ∧
    (∀ (data : List ℕ) (iw ih ow oh s : ℤ) (old : Option Dfield),
      (dfieldGenerateSt data iw ih ow oh s old).1 ≠ .OKAY →
      (dfieldGenerateSt data iw ih ow oh s old).2 = old) := by
  constructor
  · intro file old h
    simp only [dfieldFromFileSt] at h ⊢
    split_ifs at h ⊢ <;> first | rfl | simp at h
  · intro data iw ih ow oh s old h
    simp only [dfieldGenerateSt] at h ⊢
    split_ifs at h ⊢ <;> first | rfl | simp at h

/-- C10 witness: a failing read (empty file) leaves the output as it
was. -/
theorem dfield_c10_witness : (dfieldFromFileSt [] none).2 = none :=
  dfield_c10_no_partial_output.1 [] none (by decide)

/-! ### C2: the squared-distance overflow at spread = 32768 -/

/-- The 32769 × 32769 all-black input grid with a single white pixel in
the bottom-right corner (flat index 32768·32769 + 32768 = 1073807360):
the configuration on which the boundary search at `spread = 32768`
meets its only differing cell at offset `(32768, 32768)`, whose squared
distance `2·32768² = 2³¹` overflows `int32_t` — contradicting the
source comment `2 * spread * spread must fit in an int32_t`. -/
def cornerGrid : List ℕ :=
  (List.replicate 1073807361 0).set 1073807360 1

/-- Every cell of `cornerGrid` other than the corner is black. -/
theorem cornerGrid_getD_ne (n : ℕ) (hn : n ≠ 1073807360) :
    cornerGrid.getD n 0 = 0 := by
  unfold cornerGrid
  rw [List.getD_eq_getElem?_getD, List.getElem?_set_ne (by omega)]
  by_cases h : n < 1073807361
  · rw [List.getElem?_replicate_of_lt h]
    rfl
  · rw [List.getElem?_eq_none (by rw [List.length_replicate]; omega)]
    rfl

/-- The corner cell of `cornerGrid` is white. -/
theorem cornerGrid_getD_corner : cornerGrid.getD 1073807360 0 = 1 := by
  unfold cornerGrid
  rw [List.getD_eq_getElem?_getD,
    List.getElem?_set_self (by rw [List.length_replicate]; omega)]
  rfl

/-- The offset list at spread 32768 splits into the offsets below 32768
and the final offset 32768. -/
theorem spreadOffsets_32768_split :
    spreadOffsets 32768 =
      (List.range 65536).map (fun t : ℕ => (t : ℤ) - 32768) ++ [(32768 : ℤ)] := by
  unfold spreadOffsets
  rw [show 2 * 32768 + 1 = 65536 + 1 from rfl, List.range_succ, List.map_append]
  norm_num

/-- On `cornerGrid`, the boundary search centred at source pixel (0, 0)
with spread 32768 finds exactly one differing cell — the corner, at
offset (32768, 32768) — and records `wrap32 (32768² + 32768²) = -2³¹`:
the squared distance has overflowed and the "minimum" is negative. -/
theorem windowMin_cornerGrid :
    windowMin cornerGrid 32769 32769 32768 0 0 false = -2147483648 := by
  have hmemA : ∀ i ∈ (List.range 65536).map (fun t : ℕ => (t : ℤ) - 32768),
      -32768 ≤ i ∧ i ≤ 32767 := by
    intro i hi
    obtain ⟨t, ht, hEq⟩ := List.mem_map.1 hi
    have := List.mem_range.1 ht
    omega
  -- rows 0 … 32767 (and the skipped negative rows) never update
  have hrows : ∀ i ∈ (List.range 65536).map (fun t : ℕ => (t : ℤ) - 32768), ∀ m,
      windowRow cornerGrid 32769 32769 32768 0 0 false m i = m := by
    intro i hi m
    obtain ⟨hi1, hi2⟩ := hmemA i hi
    unfold windowRow
    by_cases hy : 0 ≤ ((0 : ℕ) : ℤ) + i ∧ ((0 : ℕ) : ℤ) + i < ((32769 : ℕ) : ℤ)
    · rw [if_pos hy]
      apply foldl_fixed
      intro j hj m2
      have hj' := mem_spreadOffsets.1 hj
      unfold windowCell
      by_cases hx : 0 ≤ ((0 : ℕ) : ℤ) + j ∧ ((0 : ℕ) : ℤ) + j < ((32769 : ℕ) : ℤ)
      · rw [if_pos hx]
        have hidx : (((0 : ℕ) : ℤ) + i).toNat * 32769 + (((0 : ℕ) : ℤ) + j).toNat
            ≠ 1073807360 := by
          have h1 : (((0 : ℕ) : ℤ) + i).toNat ≤ 32767 := by omega
          have h2 : (((0 : ℕ) : ℤ) + i).toNat * 32769 ≤ 32767 * 32769 :=
            Nat.mul_le_mul_right _ h1
          omega
        rw [cornerGrid_getD_ne _ hidx, if_neg (by simp)]
      · rw [if_neg hx]
    · rw [if_neg hy]
  -- the last row, offset 32768: only its last cell (the corner) differs
  have hlast : windowRow cornerGrid 32769 32769 32768 0 0 false 2147483647 32768
      = -2147483648 := by
    unfold windowRow
    rw [if_pos (by norm_num)]
    rw [spreadOffsets_32768_split, List.foldl_append]
    have hpre : ((List.range 65536).map (fun t : ℕ => (t : ℤ) - 32768)).foldl
        (windowCell cornerGrid 32769 false 0 (((0 : ℕ) : ℤ) + 32768) 32768)
        2147483647 = 2147483647 := by
      apply foldl_fixed
      intro j hj m2
      obtain ⟨hj1, hj2⟩ := hmemA j hj
      unfold windowCell
      by_cases hx : 0 ≤ ((0 : ℕ) : ℤ) + j ∧ ((0 : ℕ) : ℤ) + j < ((32769 : ℕ) : ℤ)
      · rw [if_pos hx]
        have hidx : (((0 : ℕ) : ℤ) + 32768).toNat * 32769 + (((0 : ℕ) : ℤ) + j).toNat
            ≠ 1073807360 := by omega
        rw [cornerGrid_getD_ne _ hidx, if_neg (by simp)]
      · rw [if_neg hx]
    rw [hpre, List.foldl_cons, List.foldl_nil]
    unfold windowCell
    rw [if_pos (by norm_num)]
    rw [show ((((0 : ℕ) : ℤ) + 32768).toNat * 32769 + (((0 : ℕ) : ℤ) + 32768).toNat)
      = 1073807360 by omega]
    rw [cornerGrid_getD_corner]
    rw [if_pos (by constructor <;> decide)]
    decide
  unfold windowMin
  rw [spreadOffsets_32768_split, List.foldl_append]
  have hA : ((List.range 65536).map (fun t : ℕ => (t : ℤ) - 32768)).foldl
      (windowRow cornerGrid 32769 32769 32768 0 0 false) 2147483647
      = 2147483647 := foldl_fixed _ _ _ hrows
  rw [hA, List.foldl_cons, List.foldl_nil]
  exact hlast

/-- C2: at `spread = 32768` (the claim's upper bound) the claim fails on
the code.  On `cornerGrid`, the pixel sampled at source (0, 0) has a
differing in-bounds candidate — the white corner at offsets
`i = j = 32768` — so a finite minimum is recorded; but its squared
distance `32768² + 32768² = 2³¹` overflows `int32_t` to `-2³¹`, the
recorded minimum is negative, `sqrt` of it is NaN, and the stored byte
is undetermined rather than 0.  (The code's own comment says
`2 * spread * spread must fit in an int32_t`, which fails exactly at the
validation bound 32768; for `spread ≤ 32767` the claim's argument is
sound.) -/
theorem dfield_c2_overflow :
    windowMin cornerGrid 32769 32769 32768 0 0 false = -2147483648 ∧
    dfieldPixel cornerGrid 32769 32769 1 1 32768 0 0 = none := by
  refine ⟨windowMin_cornerGrid, ?_⟩
  unfold dfieldPixel
  rw [show rneNat (0 * 32769) 1 = 0 from rfl]
  rw [show (0 : ℕ) * 32769 + 0 = 0 from rfl]
  have hget : cornerGrid[(0 : ℕ)]? = some (0 : ℕ) := by
    unfold cornerGrid
    rw [List.getElem?_set_ne (by omega), List.getElem?_replicate_of_lt (by omega)]
  rw [hget, Option.some_bind]
  unfold dfieldPixelVal
  rw [show ((0 : ℕ) != 0) = false from rfl]
  rw [windowMin_cornerGrid]
  rw [if_neg (by norm_num), if_pos (by norm_num)]
